import Mathlib

/-!
Verification development for the ezkonnect-server repository.

The development shallowly embeds the validation, annotation-policy,
workload-mutation and state-projection logic.  Go `map[string]string` values
are modelled as association lists, the Kubernetes API server is modelled as an
explicit store of pod-template specs keyed by namespace and name, and each
handler is a pure function from that store (plus the decoded request batch) to
an HTTP-level result, the updated store, and the trace of Kubernetes get and
update operations it performed.
-/

set_option autoImplicit false

namespace Ezkonnect

/-- Association-list model of a Go `map[string]string`.  Keys are unique in
every map built by the operations below. -/
abbrev StrMap := List (String × String)

/-- Go map read returning presence: `v, ok := m[k]`. -/
def mapGet : StrMap → String → Option String
  | [], _ => none
  | (k, v) :: rest, key => if k = key then some v else mapGet rest key

/-- Go map write `m[k] = v`: overwrites the binding if present, appends it
otherwise. -/
def mapSet : StrMap → String → String → StrMap
  | [], key, value => [(key, value)]
  | (k, v) :: rest, key, value =>
    if k = key then (key, value) :: rest else (k, v) :: mapSet rest key value

/-- Go `delete(m, k)`: removes the binding for `k`. -/
def mapDelete : StrMap → String → StrMap
  | [], _ => []
  | (k, v) :: rest, key =>
    if k = key then mapDelete rest key else (k, v) :: mapDelete rest key

/-- Go map read without presence flag: `m[k]` yields the zero value `""` when
the key is absent (also on a nil map). -/
def mapGetD (m : StrMap) (key : String) : String := (mapGet m key).getD ""

/-- Substring test on character lists: some suffix of `l` has `sub` as a
prefix.  `strings.Contains(s, "")` is true, matched by the empty list being a
prefix of everything. -/
def charsContains : List Char → List Char → Bool
  | [], sub => sub.isEmpty
  | c :: rest, sub => List.isPrefixOf sub (c :: rest) || charsContains rest sub

/-- Model of Go `strings.Contains`. -/
def strContains (s sub : String) : Bool := charsContains s.data sub.data

/-- Model of Go `strings.ToLower` on the ASCII strings this server handles:
each character is lowercased.  (Defined over the character list so that the
kernel can evaluate it on literals.) -/
def strToLower (s : String) : String := ⟨s.data.map Char.toLower⟩

namespace Api

/- Constants from `api/common.go`.  Note the mixed-case `statefulSet`. -/

def KindDeployment : String := "deployment"

def KindStatefulSet : String := "statefulSet"

def ActionAdd : String := "add"

def ActionDelete : String := "delete"

def ErrorInvalidInput : String := "Invalid input "

def ErrorGet : String := "Error getting resource "

def ErrorTimeout : String := "Timeout while updating the instrumentation status: "

def ValidKinds : List String := [KindDeployment, KindStatefulSet]

def ValidActions : List String := [ActionAdd, ActionDelete]

/-- Model of `api.Contains` (`part_010`).  The Go loop body is
`if v == value { }` — an `if` with an empty block — followed by an
unconditional `return true`, so the first iteration always returns `true`;
the `if` is kept here with identical branches to mirror that structure. -/
def Contains (slice : List String) (value : String) : Bool :=
  match slice with
  | [] => false
  | v :: _ => if v == value then true else true

/-- Model of `api.IsInternalResource` (`api/common.go`). -/
def IsInternalResource (name : String) : Bool :=
  strContains name "ezkonnect" || (name == "kubernetes-instrumentor")

end Api

/-- The pod template of a workload: its metadata annotations (a `none` value models
a Go nil map) and the names of its containers. -/
structure PodTemplateSpec where
  annotations : Option StrMap
  containers : List String
deriving DecidableEq, Repr

/-- Read an annotation off a pod template the way Go reads a possibly-nil map:
absent keys (and nil maps) give `""`. -/
def annotGetD (w : PodTemplateSpec) (key : String) : String :=
  mapGetD (w.annotations.getD []) key

/-- The Kubernetes store visible to the handlers: deployments and statefulsets
keyed by `(namespace, name)`. -/
structure Cluster where
  deployments : List ((String × String) × PodTemplateSpec)
  statefulSets : List ((String × String) × PodTemplateSpec)
deriving DecidableEq, Repr

def lookupWorkload : List ((String × String) × PodTemplateSpec) → String → String →
    Option PodTemplateSpec
  | [], _, _ => none
  | (key, w) :: rest, ns, name =>
    if key = (ns, name) then some w else lookupWorkload rest ns name

def storeWorkload : List ((String × String) × PodTemplateSpec) → String → String →
    PodTemplateSpec → List ((String × String) × PodTemplateSpec)
  | [], ns, name, w => [((ns, name), w)]
  | (key, w0) :: rest, ns, name, w =>
    if key = (ns, name) then ((ns, name), w) :: rest
    else (key, w0) :: storeWorkload rest ns name w

def getDeployment (c : Cluster) (ns name : String) : Option PodTemplateSpec :=
  lookupWorkload c.deployments ns name

def updateDeployment (c : Cluster) (ns name : String) (w : PodTemplateSpec) : Cluster :=
  { c with deployments := storeWorkload c.deployments ns name w }

def getStatefulSet (c : Cluster) (ns name : String) : Option PodTemplateSpec :=
  lookupWorkload c.statefulSets ns name

def updateStatefulSet (c : Cluster) (ns name : String) (w : PodTemplateSpec) : Cluster :=
  { c with statefulSets := storeWorkload c.statefulSets ns name w }

/-- One Kubernetes API round trip performed by a handler. -/
inductive K8sOp where
  | getDeployment (ns name : String)
  | updateDeployment (ns name : String)
  | getStatefulSet (ns name : String)
  | updateStatefulSet (ns name : String)
deriving DecidableEq, Repr

/-- Outcome of one handler invocation: a 200 with the encoded responses, or an
`http.Error` with its status code and message. -/
inductive HandlerResult (α : Type) where
  | ok (responses : List α)
  | httpError (status : Nat) (message : String)
deriving DecidableEq, Repr

namespace Annotate

/-- Source constant `LogTypeAnnotation` in `api/annotate/logs.go`. -/
def LogTypeAnnotKey : String := "logz.io/application_type"

/-- Source constant `InstrumentationAnnotation` in the traces handler. -/
def InstrumentationAnnotKey : String := "logz.io/traces_instrument"

/-- Source constant `ServiceNameAnnotation` in the traces handler. -/
def ServiceNameAnnotKey : String := "logz.io/service-name"

structure LogsResourceRequest where
  name : String
  kind : String
  nspace : String
  logType : String
deriving DecidableEq, Repr

structure LogsResourceResponse where
  name : String
  nspace : String
  kind : String
  updatedAnnotations : StrMap
deriving DecidableEq, Repr

/-- Model of `isValidLogsResourceRequest`: the request kind is compared with
the lowercasing of each entry of `api.ValidKinds`. -/
def isValidLogsResourceRequest (req : LogsResourceRequest) : Bool :=
  Api.ValidKinds.any (fun validKind => req.kind == strToLower validKind)

def validateLogsResourceRequests (resources : List LogsResourceRequest) : Bool :=
  resources.all isValidLogsResourceRequest

/-- The mutation the logs handler applies to the fetched workload: lazily
initialize a nil annotation map, then set the log-type key when the requested
value is non-empty and delete it when the value is empty. -/
def applyLogsValue (w : PodTemplateSpec) (value : String) : PodTemplateSpec :=
  let anns := w.annotations.getD []
  if value.length ≠ 0 then { w with annotations := some (mapSet anns LogTypeAnnotKey value) }
  else { w with annotations := some (mapDelete anns LogTypeAnnotKey) }

/-- The response entry the logs handler builds before the switch: its
`updated_annotations` is the singleton map binding the log-type key to the
requested value, whatever that value is. -/
def logsResponseFor (resource : LogsResourceRequest) : LogsResourceResponse :=
  { name := resource.name
    nspace := resource.nspace
    kind := resource.kind
    updatedAnnotations := [(LogTypeAnnotKey, resource.logType)] }

/-- The per-item loop of `UpdateLogsResourceAnnotations` (`api/annotate/logs.go`):
switch on the request kind against `api.KindDeployment` / `api.KindStatefulSet`,
get the workload, apply the log-type mutation, update it, and append the
response; a kind matching neither case falls through silently. -/
def updateLogsLoop : Cluster → List K8sOp → List LogsResourceResponse →
    List LogsResourceRequest → HandlerResult LogsResourceResponse × Cluster × List K8sOp
  | cluster, ops, responses, [] => (.ok responses, cluster, ops)
  | cluster, ops, responses, resource :: rest =>
    let value := resource.logType
    let response := logsResponseFor resource
    if resource.kind = Api.KindDeployment then
      match getDeployment cluster resource.nspace resource.name with
      | none =>
        (.httpError 500 Api.ErrorGet, cluster,
          ops ++ [K8sOp.getDeployment resource.nspace resource.name])
      | some deployment =>
        updateLogsLoop
          (updateDeployment cluster resource.nspace resource.name (applyLogsValue deployment value))
          (ops ++ [K8sOp.getDeployment resource.nspace resource.name,
            K8sOp.updateDeployment resource.nspace resource.name])
          (responses ++ [response]) rest
    else if resource.kind = Api.KindStatefulSet then
      match getStatefulSet cluster resource.nspace resource.name with
      | none =>
        (.httpError 500 Api.ErrorGet, cluster,
          ops ++ [K8sOp.getStatefulSet resource.nspace resource.name])
      | some statefulSet =>
        updateLogsLoop
          (updateStatefulSet cluster resource.nspace resource.name (applyLogsValue statefulSet value))
          (ops ++ [K8sOp.getStatefulSet resource.nspace resource.name,
            K8sOp.updateStatefulSet resource.nspace resource.name])
          (responses ++ [response]) rest
    else
      updateLogsLoop cluster ops responses rest

/-- Model of `UpdateLogsResourceAnnotations`: the whole batch is validated
before the loop; an invalid batch is rejected with a 400 and no Kubernetes
operation is performed. -/
def UpdateLogsResourceAnnotations (cluster : Cluster) (resources : List LogsResourceRequest) :
    HandlerResult LogsResourceResponse × Cluster × List K8sOp :=
  if validateLogsResourceRequests resources = false then
    (.httpError 400 Api.ErrorInvalidInput, cluster, [])
  else
    updateLogsLoop cluster [] [] resources

structure TracesResourceRequest where
  name : String
  kind : String
  nspace : String
  action : String
  serviceName : String
deriving DecidableEq, Repr

structure TracesResourceResponse where
  name : String
  nspace : String
  kind : String
  updatedAnnotations : StrMap
deriving DecidableEq, Repr

/-- Model of `isValidTracesResourceRequest` (the `strings.ToLower` based
validator of the traces handler). -/
def isValidTracesResourceRequest (req : TracesResourceRequest) : Bool :=
  let isValidAction := Api.ValidActions.any (fun validAction => req.action == strToLower validAction)
  let isValidKind := Api.ValidKinds.any (fun validKind => req.kind == strToLower validKind)
  isValidKind && isValidAction

def validateTracesResourceRequests (resources : List TracesResourceRequest) : Bool :=
  resources.all isValidTracesResourceRequest

/-- The annotation delta of the traces handler: the instrumentation key is
`"true"` unless the action is `delete`, in which case it is `"rollback"`; the
service-name key is added exactly when the service name of the request is
non-empty. -/
def tracesAnnotations (resource : TracesResourceRequest) : StrMap :=
  let actionValue := if resource.action == Api.ActionDelete then "rollback" else "true"
  let annots := mapSet [] InstrumentationAnnotKey actionValue
  if resource.serviceName ≠ "" then mapSet annots ServiceNameAnnotKey resource.serviceName
  else annots

/-- The workload-side application of an annotation delta: for each binding,
lazily initialize a nil map and set the key. -/
def applyAnnots (annots : StrMap) (w : PodTemplateSpec) : PodTemplateSpec :=
  annots.foldl
    (fun wk kv => { wk with annotations := some (mapSet (wk.annotations.getD []) kv.1 kv.2) }) w

def tracesResponseFor (resource : TracesResourceRequest) : TracesResourceResponse :=
  { name := resource.name
    nspace := resource.nspace
    kind := resource.kind
    updatedAnnotations := tracesAnnotations resource }

/-- The per-item loop of the confirming traces handler (`part_009`).  Each
batch item carries a Boolean oracle recording whether the watched custom
status sub-document of the custom resource changed before the shared deadline during this
wait for this item: the `select` at the end of each iteration continues on a
confirmation signal and returns a 500 timeout error otherwise, keeping every
mutation already applied. -/
def updateTracesLoopTimed : Cluster → List K8sOp → List TracesResourceResponse →
    List (TracesResourceRequest × Bool) → HandlerResult TracesResourceResponse × Cluster × List K8sOp
  | cluster, ops, responses, [] => (.ok responses, cluster, ops)
  | cluster, ops, responses, (resource, confirmed) :: rest =>
    let annots := tracesAnnotations resource
    let response := tracesResponseFor resource
    if resource.kind = Api.KindDeployment then
      match getDeployment cluster resource.nspace resource.name with
      | none =>
        (.httpError 500 Api.ErrorGet, cluster,
          ops ++ [K8sOp.getDeployment resource.nspace resource.name])
      | some deployment =>
        let cluster2 := updateDeployment cluster resource.nspace resource.name
          (applyAnnots annots deployment)
        let ops2 := ops ++ [K8sOp.getDeployment resource.nspace resource.name,
          K8sOp.updateDeployment resource.nspace resource.name]
        if confirmed then updateTracesLoopTimed cluster2 ops2 (responses ++ [response]) rest
        else (.httpError 500 (Api.ErrorTimeout ++ resource.name), cluster2, ops2)
    else if resource.kind = Api.KindStatefulSet then
      match getStatefulSet cluster resource.nspace resource.name with
      | none =>
        (.httpError 500 Api.ErrorGet, cluster,
          ops ++ [K8sOp.getStatefulSet resource.nspace resource.name])
      | some statefulSet =>
        let cluster2 := updateStatefulSet cluster resource.nspace resource.name
          (applyAnnots annots statefulSet)
        let ops2 := ops ++ [K8sOp.getStatefulSet resource.nspace resource.name,
          K8sOp.updateStatefulSet resource.nspace resource.name]
        if confirmed then updateTracesLoopTimed cluster2 ops2 (responses ++ [response]) rest
        else (.httpError 500 (Api.ErrorTimeout ++ resource.name), cluster2, ops2)
    else
      if confirmed then updateTracesLoopTimed cluster ops responses rest
      else (.httpError 500 (Api.ErrorTimeout ++ resource.name), cluster, ops)

/-- Model of the confirming `UpdateTracesResourceAnnotations` (`part_009`):
validate the whole batch first, then run the mutate-and-await loop. -/
def UpdateTracesResourceAnnotations (cluster : Cluster)
    (resources : List (TracesResourceRequest × Bool)) :
    HandlerResult TracesResourceResponse × Cluster × List K8sOp :=
  if validateTracesResourceRequests (resources.map Prod.fst) = false then
    (.httpError 400 Api.ErrorInvalidInput, cluster, [])
  else
    updateTracesLoopTimed cluster [] [] resources

end Annotate

namespace TracesV0

/- Model of `api/annotate/traces.go`: the traces handler variant whose
validation is built on the flawed `api.Contains` and runs inside the per-item
loop. -/

structure TracesResourceRequest where
  name : String
  kind : String
  nspace : String
  action : String
deriving DecidableEq, Repr

structure TracesResourceResponse where
  name : String
  nspace : String
  kind : String
  updatedAnnotations : StrMap
deriving DecidableEq, Repr

/-- Model of `isValidTracesResourceRequest` in `api/annotate/traces.go`, which
delegates to `api.Contains`. -/
def isValidTracesResourceRequest (req : TracesResourceRequest) : Bool :=
  Api.Contains ["deployment", "statefulset"] req.kind &&
  Api.Contains ["add", "delete"] req.action

/-- The annotation delta of this variant: only the instrumentation key, with
value `"true"` unless the action is `delete`. -/
def tracesAnnotationsV0 (resource : TracesResourceRequest) : StrMap :=
  let value := if resource.action == "delete" then "rollback" else "true"
  [("logz.io/traces_instrument", value)]

def tracesResponseForV0 (resource : TracesResourceRequest) : TracesResourceResponse :=
  { name := resource.name
    nspace := resource.nspace
    kind := resource.kind
    updatedAnnotations := tracesAnnotationsV0 resource }

/-- The per-item loop of `UpdateTracesResourceAnnotations` in
`api/annotate/traces.go`: each item is validated inside the loop (after
earlier items were already mutated), then dispatched on the literal kinds
`"deployment"` and `"statefulset"`. -/
def updateTracesLoopV0 : Cluster → List K8sOp → List TracesResourceResponse →
    List TracesResourceRequest → HandlerResult TracesResourceResponse × Cluster × List K8sOp
  | cluster, ops, responses, [] => (.ok responses, cluster, ops)
  | cluster, ops, responses, resource :: rest =>
    if isValidTracesResourceRequest resource = false then
      (.httpError 400 "Invalid input", cluster, ops)
    else
      let annots := tracesAnnotationsV0 resource
      let response := tracesResponseForV0 resource
      if resource.kind = "deployment" then
        match getDeployment cluster resource.nspace resource.name with
        | none =>
          (.httpError 500 Api.ErrorGet, cluster,
            ops ++ [K8sOp.getDeployment resource.nspace resource.name])
        | some deployment =>
          updateTracesLoopV0
            (updateDeployment cluster resource.nspace resource.name
              (Annotate.applyAnnots annots deployment))
            (ops ++ [K8sOp.getDeployment resource.nspace resource.name,
              K8sOp.updateDeployment resource.nspace resource.name])
            (responses ++ [response]) rest
      else if resource.kind = "statefulset" then
        match getStatefulSet cluster resource.nspace resource.name with
        | none =>
          (.httpError 500 Api.ErrorGet, cluster,
            ops ++ [K8sOp.getStatefulSet resource.nspace resource.name])
        | some statefulSet =>
          updateTracesLoopV0
            (updateStatefulSet cluster resource.nspace resource.name
              (Annotate.applyAnnots annots statefulSet))
            (ops ++ [K8sOp.getStatefulSet resource.nspace resource.name,
              K8sOp.updateStatefulSet resource.nspace resource.name])
            (responses ++ [response]) rest
      else
        updateTracesLoopV0 cluster ops responses rest

/-- Model of `UpdateTracesResourceAnnotations` in `api/annotate/traces.go`. -/
def UpdateTracesResourceAnnotationsV0 (cluster : Cluster)
    (resources : List TracesResourceRequest) :
    HandlerResult TracesResourceResponse × Cluster × List K8sOp :=
  updateTracesLoopV0 cluster [] [] resources

end TracesV0

namespace AnnotateV0

/- Model of `api/annotate/annotate.go`: the oldest handler variant, with its
package-local flawed `contains` helper. -/

structure ResourceRequest where
  name : String
  kind : String
  nspace : String
  telemetryType : String
  action : String
deriving DecidableEq, Repr

/-- Model of the package-local `contains` in `api/annotate/annotate.go`: the
same structure as `api.Contains`, with an empty-bodied equality test followed
by an unconditional `return true` on the first iteration. -/
def contains (slice : List String) (value : String) : Bool :=
  match slice with
  | [] => false
  | v :: _ => if v == value then true else true

/-- Model of `isValidResourceRequest` in `api/annotate/annotate.go`. -/
def isValidResourceRequest (req : ResourceRequest) : Bool :=
  contains ["deployment", "statefulset"] req.kind &&
  contains ["metrics", "traces"] req.telemetryType &&
  contains ["add", "delete"] req.action

end AnnotateV0

namespace State

/- Model of the state projector (`part_007`): flattening the list of
InstrumentedApplication custom resources into per-container records. -/

structure LanguageEntry where
  language : String
  containerName : String
  opentelemetryPreconfigured : Bool
deriving DecidableEq, Repr

structure ApplicationEntry where
  application : String
  containerName : String
deriving DecidableEq, Repr

structure OwnerReference where
  kind : String
  name : String
deriving DecidableEq, Repr

structure ResourceStatus where
  tracesInstrumented : Bool
  phase : String
deriving DecidableEq, Repr

/-- An InstrumentedApplication item as the projector reads it.  `ownerRef0` is
`item.GetOwnerReferences()[0]` (the data model guarantees exactly one owner
reference); `languages` and `applications` are `some` exactly when the
corresponding spec field is present as a list (the `langOk` / `appOk` type
assertions in the source). -/
structure AppItem where
  name : String
  nspace : String
  ownerRef0 : OwnerReference
  logType : String
  languages : Option (List LanguageEntry)
  applications : Option (List ApplicationEntry)
  status : ResourceStatus
deriving DecidableEq, Repr

structure InstrumentdApplicationData where
  name : String
  nspace : String
  controllerKind : String
  containerName : Option String
  tracesInstrumented : Bool
  serviceName : Option String
  tracesInstrumentable : Bool
  application : Option String
  language : Option String
  detectionStatus : String
  opentelemetryPreconfigured : Option Bool
  logType : Option String
deriving DecidableEq, Repr

/-- Modelled from the spec: the constant `api.LogzioServiceAnnotationName` is
referenced by `calculateServiceName` but its defining source file is not in
the snapshot; the spec describes it as the explicit service-name annotation
already present on the pod template, which is the key
`"logz.io/service-name"` written by the traces annotate handler.  Claims about
`calculateServiceName` do not depend on the literal value. -/
def LogzioServiceAnnotName : String := "logz.io/service-name"

/-- Model of `calculateServiceName` (`part_007`): annotation verbatim if
non-empty, else the container name when the pod has more than one container,
else the container name when the lowercased owner name equals it, else the
lowercased owner name, a dash, and the container name. -/
def calculateServiceName (podSpec : PodTemplateSpec) (item : AppItem)
    (containerName : String) : String :=
  if annotGetD podSpec LogzioServiceAnnotName ≠ "" then
    annotGetD podSpec LogzioServiceAnnotName
  else if podSpec.containers.length > 1 then containerName
  else if strToLower item.ownerRef0.name == containerName then containerName
  else strToLower item.ownerRef0.name ++ "-" ++ containerName

/-- The wording used by claim C5 of the service-name precedence, for comparison with
`calculateServiceName`: its third step compares the owner workload name
verbatim (not lowercased) with the container name. -/
def claimServiceName (podSpec : PodTemplateSpec) (item : AppItem)
    (containerName : String) : String :=
  if annotGetD podSpec LogzioServiceAnnotName ≠ "" then
    annotGetD podSpec LogzioServiceAnnotName
  else if podSpec.containers.length > 1 then containerName
  else if item.ownerRef0.name == containerName then containerName
  else strToLower item.ownerRef0.name ++ "-" ++ containerName

/-- The service name computed for a language entry: the switch on the
lowercased owner kind fetches the owning deployment or statefulset (aborting
the handler if the get fails) and otherwise leaves the name empty. -/
def languageServiceName (cluster : Cluster) (item : AppItem) (containerName : String) :
    Except String String :=
  let controllerKind := strToLower item.ownerRef0.kind
  if controllerKind = Api.KindDeployment then
    match getDeployment cluster item.nspace item.ownerRef0.name with
    | none => Except.error Api.ErrorGet
    | some deployment => Except.ok (calculateServiceName deployment item containerName)
  else if controllerKind = Api.KindStatefulSet then
    match getStatefulSet cluster item.nspace item.ownerRef0.name with
    | none => Except.error Api.ErrorGet
    | some statefulSet => Except.ok (calculateServiceName statefulSet item containerName)
  else Except.ok ""

/-- The record built for one `languages` entry (the struct literal in the
languages branch of the projector). -/
def mkLangRecord (item : AppItem) (serviceName : String) (lang : LanguageEntry) :
    InstrumentdApplicationData :=
  { name := item.name
    nspace := item.nspace
    controllerKind := strToLower item.ownerRef0.kind
    tracesInstrumented := item.status.tracesInstrumented
    tracesInstrumentable := true
    serviceName := some serviceName
    containerName := some lang.containerName
    application := none
    language := some lang.language
    detectionStatus := item.status.phase
    logType := some item.logType
    opentelemetryPreconfigured := some lang.opentelemetryPreconfigured }

/-- The record built for one `applications` entry. -/
def mkAppRecord (item : AppItem) (app : ApplicationEntry) : InstrumentdApplicationData :=
  { name := item.name
    nspace := item.nspace
    controllerKind := strToLower item.ownerRef0.kind
    tracesInstrumented := item.status.tracesInstrumented
    tracesInstrumentable := false
    serviceName := none
    containerName := some app.containerName
    application := some app.application
    language := none
    detectionStatus := item.status.phase
    logType := some item.logType
    opentelemetryPreconfigured := some false }

/-- The single record built when neither list is present. -/
def mkEmptyRecord (item : AppItem) : InstrumentdApplicationData :=
  { name := item.name
    nspace := item.nspace
    controllerKind := strToLower item.ownerRef0.kind
    tracesInstrumented := item.status.tracesInstrumented
    tracesInstrumentable := false
    serviceName := none
    containerName := none
    application := none
    language := none
    detectionStatus := item.status.phase
    logType := some item.logType
    opentelemetryPreconfigured := some false }

/-- The languages branch: one record per entry, in order, aborting the whole
handler when a service-name workload get fails. -/
def languageRecords (cluster : Cluster) (item : AppItem) :
    List LanguageEntry → Except String (List InstrumentdApplicationData)
  | [] => Except.ok []
  | lang :: rest =>
    match languageServiceName cluster item lang.containerName with
    | Except.error e => Except.error e
    | Except.ok serviceName =>
      match languageRecords cluster item rest with
      | Except.error e => Except.error e
      | Except.ok restRecords => Except.ok (mkLangRecord item serviceName lang :: restRecords)

/-- The applications branch: one record per entry, in order. -/
def applicationRecords (item : AppItem) : List InstrumentdApplicationData :=
  (item.applications.getD []).map (mkAppRecord item)

/-- The fallback branch: one record exactly when neither list is present. -/
def fallbackRecords (item : AppItem) : List InstrumentdApplicationData :=
  match item.languages, item.applications with
  | none, none => [mkEmptyRecord item]
  | _, _ => []

/-- Projection of one non-internal item: the languages branch, then the
applications branch, then the fallback, appended in source order. -/
def projectItem (cluster : Cluster) (item : AppItem) :
    Except String (List InstrumentdApplicationData) :=
  match languageRecords cluster item (item.languages.getD []) with
  | Except.error e => Except.error e
  | Except.ok langRecs => Except.ok (langRecs ++ applicationRecords item ++ fallbackRecords item)

/-- Model of `GetCustomResourcesHandler` (`part_007`), restricted to its
projection loop: skip internal resources and concatenate each remaining
records of each remaining item. -/
def GetCustomResourcesHandler (cluster : Cluster) :
    List AppItem → Except String (List InstrumentdApplicationData)
  | [] => Except.ok []
  | item :: rest =>
    if Api.IsInternalResource item.name then GetCustomResourcesHandler cluster rest
    else
      match projectItem cluster item with
      | Except.error e => Except.error e
      | Except.ok records =>
        match GetCustomResourcesHandler cluster rest with
        | Except.error e => Except.error e
        | Except.ok restRecords => Except.ok (records ++ restRecords)

end State

/-- The shape claim C6 makes of the projection of one non-internal document: the
output decomposes into the three branches, the languages and applications
branches emit exactly one record per entry (elementwise as the struct literals of the source, with the service name coming from the lookup made for the entry), the
fallback emits exactly one null-field record exactly when neither list is
present, and the status fields are copied verbatim onto every record. -/
def ProjectionShape (cluster : Cluster) (item : State.AppItem)
    (recs : List State.InstrumentdApplicationData) : Prop :=
  ∃ langRecs,
    State.languageRecords cluster item (item.languages.getD []) = Except.ok langRecs ∧
    recs = langRecs ++ State.applicationRecords item ++ State.fallbackRecords item ∧
    langRecs.length = (item.languages.getD []).length ∧
    (∀ i, i < (item.languages.getD []).length →
      ∃ s entry, (item.languages.getD []).get? i = some entry ∧
        State.languageServiceName cluster item entry.containerName = Except.ok s ∧
        langRecs.get? i = some (State.mkLangRecord item s entry)) ∧
    (State.applicationRecords item).length = (item.applications.getD []).length ∧
    (∀ i, i < (item.applications.getD []).length →
      ∃ entry, (item.applications.getD []).get? i = some entry ∧
        (State.applicationRecords item).get? i = some (State.mkAppRecord item entry)) ∧
    (item.languages = none → item.applications = none →
      State.fallbackRecords item = [State.mkEmptyRecord item]) ∧
    ((item.languages ≠ none ∨ item.applications ≠ none) → State.fallbackRecords item = []) ∧
    (∀ r ∈ recs, r.tracesInstrumented = item.status.tracesInstrumented ∧
      r.detectionStatus = item.status.phase) ∧
    (∀ r ∈ langRecs, r.tracesInstrumentable = true) ∧
    (∀ s entry, (State.mkLangRecord item s entry).opentelemetryPreconfigured =
      some entry.opentelemetryPreconfigured) ∧
    (∀ r ∈ State.applicationRecords item, r.tracesInstrumentable = false ∧
      r.opentelemetryPreconfigured = some false) ∧
    (∀ r ∈ State.fallbackRecords item, r.containerName = none ∧ r.application = none ∧
      r.language = none ∧ r.tracesInstrumentable = false)

/- Concrete sample inputs used by counterexamples and witnesses. -/

/-- A cluster holding one deployment `default/my-app` with a nil annotation
map and one container. -/
def sampleCluster : Cluster :=
  { deployments := [(("default", "my-app"), { annotations := none, containers := ["c"] })]
    statefulSets := [] }

/-- A traces request (legacy shape) whose action `remove` is outside the
valid action set. -/
def invalidActionReq : TracesV0.TracesResourceRequest :=
  { name := "my-app", kind := "deployment", nspace := "default", action := "remove" }

/-- A cluster holding one deployment `default/my-app` whose pod template
already carries a log-type annotation and one unrelated annotation. -/
def logsCluster : Cluster :=
  { deployments := [(("default", "my-app"),
      { annotations := some [(Annotate.LogTypeAnnotKey, "json"), ("other", "x")]
        containers := ["c"] })]
    statefulSets := [] }

/-- A logs request asking for the empty log type (a deletion). -/
def emptyLogTypeReq : Annotate.LogsResourceRequest :=
  { name := "my-app", kind := "deployment", nspace := "default", logType := "" }

/-- A single-container pod template with no annotations. -/
def singleApiPod : PodTemplateSpec := { annotations := none, containers := ["api"] }

/-- An item owned by a deployment whose name is `API` (upper case), so that
the owner name differs from the container name `api` only by letter case. -/
def upperOwnerItem : State.AppItem :=
  { name := "x"
    nspace := "default"
    ownerRef0 := { kind := "Deployment", name := "API" }
    logType := ""
    languages := none
    applications := none
    status := { tracesInstrumented := false, phase := "pending" } }

/-- A cluster holding the owning deployment `default/owner`. -/
def projCluster : Cluster :=
  { deployments := [(("default", "owner"), { annotations := none, containers := ["c"] })]
    statefulSets := [] }

/-- A language-detected document owned by deployment `owner`. -/
def langItem : State.AppItem :=
  { name := "app"
    nspace := "default"
    ownerRef0 := { kind := "Deployment", name := "owner" }
    logType := "json"
    languages := some [⟨"go", "c", true⟩]
    applications := none
    status := { tracesInstrumented := true, phase := "Completed" } }

/-- A valid traces request (confirming handler shape) targeting the sample
deployment. -/
def tracesReq : Annotate.TracesResourceRequest :=
  { name := "my-app", kind := "deployment", nspace := "default", action := "add",
    serviceName := "svc" }

/-- A valid logs request whose kind is the lowercase `statefulset`. -/
def statefulLogsReq : Annotate.LogsResourceRequest :=
  { name := "s", kind := "statefulset", nspace := "d", logType := "t" }

/-- A language-detected document owned by a StatefulSet. -/
def statefulLangItem : State.AppItem :=
  { name := "app"
    nspace := "default"
    ownerRef0 := { kind := "StatefulSet", name := "owner" }
    logType := "json"
    languages := some [⟨"go", "c", false⟩]
    applications := none
    status := { tracesInstrumented := false, phase := "Running" } }

/-! Helper lemmas shared by several claims. -/

theorem mapGet_mapSet_self (m : StrMap) (k v : String) : mapGet (mapSet m k v) k = some v := by
  induction m with
  | nil => simp [mapSet, mapGet]
  | cons kv rest ih => by_cases h : kv.1 = k <;> simp [mapSet, mapGet, h, ih]

theorem mapGet_mapDelete_self (m : StrMap) (k : String) : mapGet (mapDelete m k) k = none := by
  induction m with
  | nil => rfl
  | cons kv rest ih => by_cases h : kv.1 = k <;> simp [mapDelete, mapGet, h, ih]

/-- Characterization of the logs validator: it accepts exactly the two
lowercase spellings, because each valid kind is lowercased before the
comparison. -/
theorem validLogs_iff (req : Annotate.LogsResourceRequest) :
    Annotate.isValidLogsResourceRequest req = true ↔
      (req.kind = "deployment" ∨ req.kind = "statefulset") := by
  have h1 : strToLower Api.KindDeployment = "deployment" := rfl
  have h2 : strToLower Api.KindStatefulSet = "statefulset" := rfl
  simp [Annotate.isValidLogsResourceRequest, Api.ValidKinds, h1, h2]

/-- Characterization of the traces validator (lowercase spellings only, for
both the kind and the action). -/
theorem validTraces_iff (req : Annotate.TracesResourceRequest) :
    Annotate.isValidTracesResourceRequest req = true ↔
      ((req.kind = "deployment" ∨ req.kind = "statefulset") ∧
       (req.action = "add" ∨ req.action = "delete")) := by
  have h1 : strToLower Api.KindDeployment = "deployment" := rfl
  have h2 : strToLower Api.KindStatefulSet = "statefulset" := rfl
  have h3 : strToLower Api.ActionAdd = "add" := rfl
  have h4 : strToLower Api.ActionDelete = "delete" := rfl
  simp [Annotate.isValidTracesResourceRequest, Api.ValidKinds, Api.ValidActions, h1, h2, h3, h4]

/-- A batch whose items all carry the kind `statefulset` passes through the
logs loop without touching the cluster: the switch matches neither
`api.KindDeployment` nor the mixed-case `api.KindStatefulSet`. -/
theorem updateLogsLoop_skips_statefulset (cluster : Cluster) (ops : List K8sOp)
    (responses : List Annotate.LogsResourceResponse) :
    ∀ resources : List Annotate.LogsResourceRequest,
      (∀ r ∈ resources, r.kind = "statefulset") →
      Annotate.updateLogsLoop cluster ops responses resources =
        (HandlerResult.ok responses, cluster, ops)
  | [], _ => rfl
  | resource :: rest, h => by
    have hk : resource.kind = "statefulset" := h resource (List.mem_cons_self _ _)
    have hne1 : ¬ resource.kind = Api.KindDeployment := by rw [hk]; decide
    have hne2 : ¬ resource.kind = Api.KindStatefulSet := by rw [hk]; decide
    rw [Annotate.updateLogsLoop, if_neg hne1, if_neg hne2]
    exact updateLogsLoop_skips_statefulset cluster ops responses rest
      (fun r hr => h r (List.mem_cons_of_mem _ hr))

/-- Elementwise characterization of the languages branch: on success it emits
exactly one record per entry, in order, built by `mkLangRecord` from the entry
and its resolved service name. -/
theorem languageRecords_spec (cluster : Cluster) (item : State.AppItem) :
    ∀ (ls : List State.LanguageEntry) (recs : List State.InstrumentdApplicationData),
      State.languageRecords cluster item ls = Except.ok recs →
      recs.length = ls.length ∧
      (∀ i, i < ls.length →
        ∃ s entry, ls.get? i = some entry ∧
          State.languageServiceName cluster item entry.containerName = Except.ok s ∧
          recs.get? i = some (State.mkLangRecord item s entry))
  | [], recs, h => by
    rw [State.languageRecords] at h
    cases h
    exact ⟨rfl, fun i hi => absurd hi (Nat.not_lt_zero i)⟩
  | lang :: rest, recs, h => by
    rw [State.languageRecords] at h
    cases hsvc : State.languageServiceName cluster item lang.containerName with
    | error e => rw [hsvc] at h; cases h
    | ok s =>
      rw [hsvc] at h
      cases hrest : State.languageRecords cluster item rest with
      | error e => rw [hrest] at h; cases h
      | ok restRecs =>
        rw [hrest] at h
        cases h
        obtain ⟨hlen, hget⟩ := languageRecords_spec cluster item rest restRecs hrest
        refine ⟨by simp [hlen], ?_⟩
        intro i hi
        cases i with
        | zero => exact ⟨s, lang, rfl, hsvc, rfl⟩
        | succ j =>
          obtain ⟨s2, entry, he, hs2, hr⟩ := hget j (Nat.lt_of_succ_lt_succ hi)
          exact ⟨s2, entry, he, hs2, hr⟩

/-- Every record emitted by the languages branch is a `mkLangRecord` of some
entry of the list. -/
theorem languageRecords_mem (cluster : Cluster) (item : State.AppItem) :
    ∀ (ls : List State.LanguageEntry) (recs : List State.InstrumentdApplicationData),
      State.languageRecords cluster item ls = Except.ok recs →
      ∀ r ∈ recs, ∃ s entry, entry ∈ ls ∧ r = State.mkLangRecord item s entry
  | [], recs, h => by
    rw [State.languageRecords] at h
    cases h
    intro r hr
    cases hr
  | lang :: rest, recs, h => by
    rw [State.languageRecords] at h
    cases hsvc : State.languageServiceName cluster item lang.containerName with
    | error e => rw [hsvc] at h; cases h
    | ok s =>
      rw [hsvc] at h
      cases hrest : State.languageRecords cluster item rest with
      | error e => rw [hrest] at h; cases h
      | ok restRecs =>
        rw [hrest] at h
        cases h
        intro r hr
        rcases List.mem_cons.mp hr with hEq | hMem
        · exact ⟨s, lang, List.mem_cons_self _ _, hEq⟩
        · obtain ⟨s2, entry, hmem, hr2⟩ :=
            languageRecords_mem cluster item rest restRecs hrest r hMem
          exact ⟨s2, entry, List.mem_cons_of_mem _ hmem, hr2⟩

/-- The fallback branch only ever emits the single empty record. -/
theorem fallbackRecords_mem (item : State.AppItem) :
    ∀ r ∈ State.fallbackRecords item, r = State.mkEmptyRecord item := by
  intro r hr
  unfold State.fallbackRecords at hr
  rcases hli : item.languages with _ | v <;> rcases hai : item.applications with _ | w <;>
    rw [hli, hai] at hr <;> simp at hr <;> try exact hr

/-! Claim theorems.  One theorem (plus, where required, one witness and one
counterexample) per claim of the specification audit. -/

/-- Claim C1 (code bug): the claim says a batch containing an item with an
invalid kind or action is rejected with a 400 and no get or update is
performed.  The validator of `api/annotate/traces.go` is built on the flawed
`api.Contains`, so the action `remove` — outside the valid action set —
passes validation, the batch is not rejected, and the handler performs a get
and an update, answering 200 and writing `logz.io/traces_instrument = "true"`
to the workload. -/
theorem c1_validation_bypass :
    TracesV0.isValidTracesResourceRequest invalidActionReq = true ∧
    invalidActionReq.action ∉ (["add", "delete"] : List String) ∧
    TracesV0.UpdateTracesResourceAnnotationsV0 sampleCluster [invalidActionReq] =
      (HandlerResult.ok [⟨"my-app", "default", "deployment",
          [("logz.io/traces_instrument", "true")]⟩],
       ⟨[(("default", "my-app"), ⟨some [("logz.io/traces_instrument", "true")], ["c"]⟩)], []⟩,
       [K8sOp.getDeployment "default" "my-app",
        K8sOp.updateDeployment "default" "my-app"]) := by
  exact ⟨by decide, by decide, by decide⟩

/-- Claim C2: under the data-model invariant that a source document never has
both `languages` and `applications` populated, no document contributes
records from both detection branches of the projector: at least one of the
two branch outputs is empty. -/
theorem c2_branch_exclusivity (cluster : Cluster) (item : State.AppItem)
    (hinv : item.languages = none ∨ item.applications = none) :
    State.languageRecords cluster item (item.languages.getD []) = Except.ok [] ∨
    State.applicationRecords item = [] := by
  rcases hinv with h | h
  · left; rw [h]; rfl
  · right; rw [State.applicationRecords, h]; rfl

theorem c2_witness :
    State.languageRecords projCluster langItem (langItem.languages.getD []) = Except.ok [] ∨
    State.applicationRecords langItem = [] :=
  c2_branch_exclusivity projCluster langItem (Or.inr rfl)

/-- Claim C3: for a valid traces request the annotation delta binds the
instrumentation key to `"true"` on action `add` and to `"rollback"` on action
`delete`, binds the service-name key exactly when the requested service name
is non-empty, and contains no other key. -/
theorem c3_traces_delta (req : Annotate.TracesResourceRequest)
    (_hvalid : Annotate.isValidTracesResourceRequest req = true) :
    (req.action = "add" →
      mapGet (Annotate.tracesAnnotations req) Annotate.InstrumentationAnnotKey = some "true") ∧
    (req.action = "delete" →
      mapGet (Annotate.tracesAnnotations req) Annotate.InstrumentationAnnotKey = some "rollback") ∧
    (mapGet (Annotate.tracesAnnotations req) Annotate.ServiceNameAnnotKey =
      if req.serviceName = "" then none else some req.serviceName) ∧
    (∀ key, key ≠ Annotate.InstrumentationAnnotKey → key ≠ Annotate.ServiceNameAnnotKey →
      mapGet (Annotate.tracesAnnotations req) key = none) := by
  refine ⟨?_, ?_, ?_, ?_⟩
  · intro ha
    have hb : (req.action == Api.ActionDelete) = false := by rw [ha]; decide
    by_cases hs : req.serviceName = "" <;>
      simp [Annotate.tracesAnnotations, hb, hs, mapSet, mapGet,
        Annotate.InstrumentationAnnotKey, Annotate.ServiceNameAnnotKey]
  · intro ha
    have hb : (req.action == Api.ActionDelete) = true := by rw [ha]; decide
    by_cases hs : req.serviceName = "" <;>
      simp [Annotate.tracesAnnotations, hb, hs, mapSet, mapGet,
        Annotate.InstrumentationAnnotKey, Annotate.ServiceNameAnnotKey]
  · by_cases hs : req.serviceName = "" <;>
      simp [Annotate.tracesAnnotations, hs, mapSet, mapGet,
        Annotate.InstrumentationAnnotKey, Annotate.ServiceNameAnnotKey]
  · intro key h1 h2
    have h1s : ¬ ("logz.io/traces_instrument" = key) := fun he => h1 he.symm
    have h2s : ¬ ("logz.io/service-name" = key) := fun he => h2 he.symm
    by_cases hs : req.serviceName = "" <;>
      simp [Annotate.tracesAnnotations, hs, mapSet, mapGet,
        Annotate.InstrumentationAnnotKey, Annotate.ServiceNameAnnotKey, h1s, h2s]

theorem c3_witness :
    mapGet (Annotate.tracesAnnotations tracesReq) Annotate.InstrumentationAnnotKey =
      some "true" ∧
    mapGet (Annotate.tracesAnnotations tracesReq) Annotate.ServiceNameAnnotKey = some "svc" := by
  have h := c3_traces_delta tracesReq (by decide)
  exact ⟨h.1 rfl, h.2.2.1.trans (by decide)⟩

/-- Claim C4 counterexample: an empty log type removes the key from the
workload pod-template map, but the response `updated_annotations` still
contains the key bound to the empty string, so the response does not reflect
the key removal as the claim states. -/
theorem c4_counterexample :
    Annotate.UpdateLogsResourceAnnotations logsCluster [emptyLogTypeReq] =
      (HandlerResult.ok [⟨"my-app", "default", "deployment",
          [(Annotate.LogTypeAnnotKey, "")]⟩],
       ⟨[(("default", "my-app"), ⟨some [("other", "x")], ["c"]⟩)], []⟩,
       [K8sOp.getDeployment "default" "my-app", K8sOp.updateDeployment "default" "my-app"]) ∧
    mapGet [(Annotate.LogTypeAnnotKey, "")] Annotate.LogTypeAnnotKey = some "" := by
  exact ⟨by decide, by decide⟩

/-- Claim C4 as amended: a non-empty log type sets the key in the workload
pod-template map and an empty log type removes it (not an empty-string
binding); the response `updated_annotations`, however, always binds the key
to the requested value, so on deletion it carries the key with the empty
string rather than omitting it. -/
theorem c4_logs_delta_amended :
    (∀ (w : PodTemplateSpec) (value : String), value ≠ "" →
      mapGet ((Annotate.applyLogsValue w value).annotations.getD [])
        Annotate.LogTypeAnnotKey = some value) ∧
    (∀ w : PodTemplateSpec,
      mapGet ((Annotate.applyLogsValue w "").annotations.getD [])
        Annotate.LogTypeAnnotKey = none) ∧
    (∀ resource : Annotate.LogsResourceRequest,
      mapGet (Annotate.logsResponseFor resource).updatedAnnotations
        Annotate.LogTypeAnnotKey = some resource.logType) := by
  refine ⟨?_, ?_, ?_⟩
  · intro w value hv
    have hlen : value.length ≠ 0 := by
      intro h0
      exact hv (by cases value with | mk data => cases data with
        | nil => rfl
        | cons c cs => simp [String.length] at h0)
    simp [Annotate.applyLogsValue, hlen, mapGet_mapSet_self]
  · intro w
    simp [Annotate.applyLogsValue, mapGet_mapDelete_self]
  · intro resource
    simp [Annotate.logsResponseFor, mapGet]

theorem c4_amended_witness :
    mapGet ((Annotate.applyLogsValue singleApiPod "json").annotations.getD [])
      Annotate.LogTypeAnnotKey = some "json" ∧
    mapGet ((Annotate.applyLogsValue singleApiPod "").annotations.getD [])
      Annotate.LogTypeAnnotKey = none :=
  ⟨c4_logs_delta_amended.1 singleApiPod "json" (by decide),
   c4_logs_delta_amended.2.1 singleApiPod⟩

/-- Claim C5 counterexample: with no annotation, one container named `api`,
and an owner named `API`, the code lowercases the owner name before the
step-3 comparison and returns `api`, while the precedence as the claim words
it (owner name compared verbatim) would fall through to step 4 and return
`api-api`. -/
theorem c5_counterexample :
    State.calculateServiceName singleApiPod upperOwnerItem "api" = "api" ∧
    State.claimServiceName singleApiPod upperOwnerItem "api" = "api-api" ∧
    upperOwnerItem.ownerRef0.name ≠ "api" ∧
    State.calculateServiceName singleApiPod upperOwnerItem "api" ≠
      State.claimServiceName singleApiPod upperOwnerItem "api" := by
  exact ⟨by decide, by decide, by decide, by decide⟩

/-- Claim C5 as amended: the service-name precedence is (1) the explicit
annotation verbatim when non-empty, (2) the container name when the pod has
more than one container, (3) the container name when the lowercased owner
name equals it, (4) otherwise the lowercased owner name, a dash, and the
container name. -/
theorem c5_precedence_amended (podSpec : PodTemplateSpec) (item : State.AppItem)
    (containerName : String) :
    (annotGetD podSpec State.LogzioServiceAnnotName ≠ "" →
      State.calculateServiceName podSpec item containerName =
        annotGetD podSpec State.LogzioServiceAnnotName) ∧
    (annotGetD podSpec State.LogzioServiceAnnotName = "" →
      podSpec.containers.length > 1 →
      State.calculateServiceName podSpec item containerName = containerName) ∧
    (annotGetD podSpec State.LogzioServiceAnnotName = "" →
      ¬ podSpec.containers.length > 1 →
      strToLower item.ownerRef0.name = containerName →
      State.calculateServiceName podSpec item containerName = containerName) ∧
    (annotGetD podSpec State.LogzioServiceAnnotName = "" →
      ¬ podSpec.containers.length > 1 →
      strToLower item.ownerRef0.name ≠ containerName →
      State.calculateServiceName podSpec item containerName =
        strToLower item.ownerRef0.name ++ "-" ++ containerName) := by
  unfold State.calculateServiceName
  refine ⟨?_, ?_, ?_, ?_⟩
  · intro h1
    rw [if_pos h1]
  · intro h1 h2
    rw [if_neg (fun hn => hn h1), if_pos h2]
  · intro h1 h2 h3
    rw [if_neg (fun hn => hn h1), if_neg h2, if_pos (by rw [h3]; exact beq_self_eq_true _)]
  · intro h1 h2 h3
    rw [if_neg (fun hn => hn h1), if_neg h2, if_neg (fun hb => h3 (eq_of_beq hb))]

theorem c5_amended_witness :
    State.calculateServiceName singleApiPod upperOwnerItem "api" = "api" :=
  (c5_precedence_amended singleApiPod upperOwnerItem "api").2.2.1 (by decide) (by decide)
    (by decide)

/-- Claim C6: for a non-internal document whose projection succeeds, the
output has exactly the shape described by `ProjectionShape`: one record per
languages entry (instrumentable, preconfiguration copied from the entry), one
record per applications entry (not instrumentable, preconfiguration false), a
single null-field record exactly when neither list is present, and the status
fields copied verbatim onto every record. -/
theorem c6_projection_shape (cluster : Cluster) (item : State.AppItem)
    (recs : List State.InstrumentdApplicationData)
    (hint : Api.IsInternalResource item.name = false)
    (hok : State.GetCustomResourcesHandler cluster [item] = Except.ok recs) :
    ProjectionShape cluster item recs := by
  rw [State.GetCustomResourcesHandler, if_neg (by simp [hint])] at hok
  cases hproj : State.projectItem cluster item with
  | error e => rw [hproj] at hok; cases hok
  | ok records =>
    rw [hproj] at hok
    rw [show State.GetCustomResourcesHandler cluster ([] : List State.AppItem) =
      Except.ok [] from rfl] at hok
    cases hok
    rw [State.projectItem] at hproj
    cases hlang : State.languageRecords cluster item (item.languages.getD []) with
    | error e => rw [hlang] at hproj; cases hproj
    | ok langRecs =>
      rw [hlang] at hproj
      cases hproj
      obtain ⟨hlen, hget⟩ := languageRecords_spec cluster item _ _ hlang
      refine ⟨langRecs, hlang, by simp, hlen, hget, ?_, ?_, ?_, ?_, ?_, ?_, ?_, ?_, ?_⟩
      · simp [State.applicationRecords]
      · intro i hi
        cases hsome : (item.applications.getD []).get? i with
        | none =>
          exact absurd (List.get?_eq_none.mp hsome) (Nat.not_le_of_lt hi)
        | some entry =>
          refine ⟨entry, rfl, ?_⟩
          rw [State.applicationRecords, List.get?_map, hsome]
          rfl
      · intro h1 h2
        unfold State.fallbackRecords
        rw [h1, h2]
      · intro h
        unfold State.fallbackRecords
        rcases hli : item.languages with _ | v <;> rcases hai : item.applications with _ | w
        · rcases h with h | h
          · exact absurd hli h
          · exact absurd hai h
        · rfl
        · rfl
        · rfl
      · intro r hr
        have hr2 : r ∈ langRecs ∨ r ∈ State.applicationRecords item ∨
            r ∈ State.fallbackRecords item := by
          simpa [List.mem_append, or_assoc] using hr
        rcases hr2 with hL | hA | hF
        · obtain ⟨s, entry, _, hre⟩ := languageRecords_mem cluster item _ _ hlang r hL
          rw [hre]
          exact ⟨rfl, rfl⟩
        · obtain ⟨entry, _, hre⟩ := List.mem_map.mp hA
          rw [← hre]
          exact ⟨rfl, rfl⟩
        · rw [fallbackRecords_mem item r hF]
          exact ⟨rfl, rfl⟩
      · intro r hr
        obtain ⟨s, entry, _, hre⟩ := languageRecords_mem cluster item _ _ hlang r hr
        rw [hre]
        exact rfl
      · intro s entry
        rfl
      · intro r hr
        obtain ⟨entry, _, hre⟩ := List.mem_map.mp hr
        rw [← hre]
        exact ⟨rfl, rfl⟩
      · intro r hr
        rw [fallbackRecords_mem item r hr]
        exact ⟨rfl, rfl, rfl, rfl⟩

theorem c6_witness :
    ProjectionShape projCluster langItem
      [State.mkLangRecord langItem "owner-c" ⟨"go", "c", true⟩] :=
  c6_projection_shape projCluster langItem
    [State.mkLangRecord langItem "owner-c" ⟨"go", "c", true⟩] (by decide) rfl

/-- Claim C7: when the confirmation oracle reports that the watched
sub-document did not change before the deadline for the current item, the
confirming traces loop answers 500 with the timeout message, processes none
of the remaining items (the result does not depend on them), and keeps both
the mutation just applied for the current item and everything already
accumulated for prior items. -/
theorem c7_timeout_no_rollback (cluster : Cluster) (ops : List K8sOp)
    (responses : List Annotate.TracesResourceResponse)
    (resource : Annotate.TracesResourceRequest) (w : PodTemplateSpec)
    (rest : List (Annotate.TracesResourceRequest × Bool))
    (hkind : resource.kind = Api.KindDeployment)
    (hget : getDeployment cluster resource.nspace resource.name = some w) :
    Annotate.updateTracesLoopTimed cluster ops responses ((resource, false) :: rest) =
      (HandlerResult.httpError 500 (Api.ErrorTimeout ++ resource.name),
       updateDeployment cluster resource.nspace resource.name
         (Annotate.applyAnnots (Annotate.tracesAnnotations resource) w),
       ops ++ [K8sOp.getDeployment resource.nspace resource.name,
         K8sOp.updateDeployment resource.nspace resource.name]) := by
  rw [Annotate.updateTracesLoopTimed, if_pos hkind, hget]
  rfl

theorem c7_witness :
    Annotate.updateTracesLoopTimed sampleCluster [] [] [(tracesReq, false)] =
      (HandlerResult.httpError 500 (Api.ErrorTimeout ++ tracesReq.name),
       updateDeployment sampleCluster tracesReq.nspace tracesReq.name
         (Annotate.applyAnnots (Annotate.tracesAnnotations tracesReq) ⟨none, ["c"]⟩),
       [] ++ [K8sOp.getDeployment tracesReq.nspace tracesReq.name,
         K8sOp.updateDeployment tracesReq.nspace tracesReq.name]) :=
  c7_timeout_no_rollback sampleCluster [] [] tracesReq ⟨none, ["c"]⟩ [] rfl rfl

/-- Claim C8 counterexample: `Deployment` differs from `deployment` only by
letter case yet is rejected, and the action `Add` differs from `add` only by
letter case yet is rejected — validation is not case-insensitive. -/
theorem c8_counterexample :
    Annotate.isValidLogsResourceRequest ⟨"my-app", "Deployment", "default", "json"⟩ = false ∧
    strToLower "Deployment" = "deployment" ∧
    Annotate.isValidTracesResourceRequest ⟨"my-app", "deployment", "default", "Add", ""⟩ =
      false ∧
    strToLower "Add" = "add" := by
  exact ⟨by decide, by decide, by decide, by decide⟩

/-- Claim C8 as amended: the `strings.ToLower`-based validators accept exactly
the lowercase spellings — `deployment` and `statefulset` for the kind, and
`add` and `delete` for the action — because each valid constant is lowercased
while the request field is compared verbatim. -/
theorem c8_validation_amended :
    (∀ req : Annotate.LogsResourceRequest,
      Annotate.isValidLogsResourceRequest req = true ↔
        (req.kind = "deployment" ∨ req.kind = "statefulset")) ∧
    (∀ req : Annotate.TracesResourceRequest,
      Annotate.isValidTracesResourceRequest req = true ↔
        ((req.kind = "deployment" ∨ req.kind = "statefulset") ∧
         (req.action = "add" ∨ req.action = "delete"))) :=
  ⟨validLogs_iff, validTraces_iff⟩

theorem c8_amended_witness :
    Annotate.isValidLogsResourceRequest statefulLogsReq = true :=
  (c8_validation_amended.1 statefulLogsReq).mpr (Or.inr rfl)

/-- Claim C9: the lowercase `statefulset` passes validation while the
spelling of the constant `api.KindStatefulSet` itself does not; a batch of
such items completes with a 200, an empty response array, an unchanged
cluster and no Kubernetes operation, because the switch compares the
validated lowercase kind against the mixed-case constant; and in the
projector the statefulset branch of the service-name switch is unreachable
for the same reason, so every language record of a StatefulSet-owned document
carries the empty service name. -/
theorem c9_statefulset_case_mismatch :
    Annotate.isValidLogsResourceRequest statefulLogsReq = true ∧
    Annotate.isValidLogsResourceRequest { statefulLogsReq with kind := "statefulSet" } =
      false ∧
    (∀ (cluster : Cluster) (resources : List Annotate.LogsResourceRequest),
      (∀ r ∈ resources, r.kind = "statefulset") →
      Annotate.UpdateLogsResourceAnnotations cluster resources =
        (HandlerResult.ok [], cluster, [])) ∧
    (∀ (cluster : Cluster) (item : State.AppItem) (ls : List State.LanguageEntry),
      item.ownerRef0.kind = "StatefulSet" →
      State.languageRecords cluster item ls =
        Except.ok (ls.map (State.mkLangRecord item ""))) := by
  refine ⟨by decide, by decide, ?_, ?_⟩
  · intro cluster resources h
    have hval : Annotate.validateLogsResourceRequests resources = true := by
      rw [Annotate.validateLogsResourceRequests, List.all_eq_true]
      intro r hr
      exact (validLogs_iff r).mpr (Or.inr (h r hr))
    rw [Annotate.UpdateLogsResourceAnnotations, hval]
    simpa using updateLogsLoop_skips_statefulset cluster [] [] resources h
  · intro cluster item ls hkind
    induction ls with
    | nil => rfl
    | cons lang rest ih =>
      have hsvc : State.languageServiceName cluster item lang.containerName =
          Except.ok "" := by
        rw [State.languageServiceName, hkind]
        rw [if_neg (by decide), if_neg (by decide)]
      rw [State.languageRecords, hsvc, ih]
      rfl

theorem c9_witness :
    Annotate.UpdateLogsResourceAnnotations sampleCluster [statefulLogsReq] =
      (HandlerResult.ok [], sampleCluster, []) ∧
    State.languageRecords sampleCluster statefulLangItem [⟨"go", "c", false⟩] =
      Except.ok [State.mkLangRecord statefulLangItem "" ⟨"go", "c", false⟩] := by
  constructor
  · exact c9_statefulset_case_mismatch.2.2.1 sampleCluster [statefulLogsReq]
      (by intro r hr; rw [List.mem_singleton] at hr; rw [hr]; rfl)
  · exact c9_statefulset_case_mismatch.2.2.2 sampleCluster statefulLangItem
      [⟨"go", "c", false⟩] rfl

/-- Claim C10: the membership helper `Contains` (and the package-local copies
of it) returns true for every non-empty slice whatever the value, and false
only on the empty slice; consequently the validators built on it accept every
kind, telemetry type and action string. -/
theorem c10_contains_membership_bug :
    (∀ (slice : List String) (value : String), slice ≠ [] → Api.Contains slice value = true) ∧
    (∀ value : String, Api.Contains [] value = false) ∧
    (∀ req : TracesV0.TracesResourceRequest,
      TracesV0.isValidTracesResourceRequest req = true) ∧
    (∀ req : AnnotateV0.ResourceRequest, AnnotateV0.isValidResourceRequest req = true) := by
  refine ⟨?_, fun _ => rfl, ?_, ?_⟩
  · intro slice value h
    cases slice with
    | nil => exact absurd rfl h
    | cons v rest => simp [Api.Contains]
  · intro req
    simp [TracesV0.isValidTracesResourceRequest, Api.Contains]
  · intro req
    simp [AnnotateV0.isValidResourceRequest, AnnotateV0.contains]

theorem c10_witness : Api.Contains ["deployment", "statefulset"] "pod" = true :=
  c10_contains_membership_bug.1 _ "pod" (by decide)

end Ezkonnect
